import Mathlib

/-!
Verification of the gh-snake-contributions game core: a shallow embedding of
the board, snake, collision, food-spawning, engine and AI-pathfinding code,
with theorems settling the behavioural claims about it.

Python integers are embedded as `Int` (coordinates, contribution levels) or
`Nat` (sizes, counters); `deque`s become `List`s with the head at index 0;
Python `set` membership tests become list membership; code that can raise an
exception returns `Option`.
-/

namespace SnakeGame

/-- `Position` from game/board.py: an integer (x, y) pair. -/
structure Position where
  x : Int
  y : Int
deriving DecidableEq, Repr

/-- `Position.__add__`: componentwise addition. -/
def Position.add (p q : Position) : Position :=
  Position.mk (p.x + q.x) (p.y + q.y)

instance : Add Position := ⟨Position.add⟩

/-- `Direction` from game/snake.py: the four movement directions. -/
inductive Direction where
  | up
  | down
  | left
  | right
deriving DecidableEq, Repr

/-- The unit `Position` vector attached to each `Direction` value. -/
def Direction.value : Direction → Position
  | .up => Position.mk 0 (-1)
  | .down => Position.mk 0 1
  | .left => Position.mk (-1) 0
  | .right => Position.mk 1 0

/-- `Direction.opposite` from game/snake.py. -/
def Direction.opposite : Direction → Direction
  | .up => .down
  | .down => .up
  | .left => .right
  | .right => .left

/-- `CellType` from game/board.py. -/
inductive CellType where
  | empty
  | wall
deriving DecidableEq, Repr

/-- `Cell` from game/board.py: type plus contribution level (0-4 scale). -/
structure Cell where
  cellType : CellType
  contributionLevel : Int
deriving DecidableEq, Repr

/-- The `contribution_mode` configuration value. -/
inductive Mode where
  | walls
  | food
  | speed
deriving DecidableEq, Repr

/-- `Board` from game/board.py: fixed dimensions and a grid of cells,
indexed as `cells y x` to mirror the Python `cells[y][x]`. -/
structure Board where
  width : Nat
  height : Nat
  cells : Nat → Nat → Cell

/-- `Board.__init__`: every cell starts `EMPTY` with level 0. -/
def mkBoard (width height : Nat) : Board :=
  Board.mk width height (fun _ _ => Cell.mk CellType.empty 0)

/-- `Board.is_valid_position`. -/
def Board.isValidPosition (b : Board) (p : Position) : Bool :=
  0 ≤ p.x && p.x < (b.width : Int) && 0 ≤ p.y && p.y < (b.height : Int)

/-- Cell lookup at an in-range position (`self.cells[pos.y][pos.x]`). -/
def Board.cellAt (b : Board) (p : Position) : Cell :=
  b.cells p.y.toNat p.x.toNat

/-- `Board.is_walkable`: valid and not a wall. -/
def Board.isWalkable (b : Board) (p : Position) : Bool :=
  b.isValidPosition p && (b.cellAt p).cellType != CellType.wall

/-- The raster enumeration pattern `for y in range(height): for x in
range(width): if ...: append(Position(x, y))` shared by the board's
position queries. -/
def gridFilter (height width : Nat) (pred : Position → Bool) : List Position :=
  (List.range height).flatMap (fun y =>
    (List.range width).filterMap (fun x =>
      let p := Position.mk (Int.ofNat x) (Int.ofNat y)
      if pred p = true then some p else none))

/-- `Board.get_empty_positions(exclude)`: all walkable positions not in
`exclude`, in raster order (y outer, x inner). -/
def Board.emptyPositions (b : Board) (exclude : List Position) : List Position :=
  gridFilter b.height b.width (fun p => b.isWalkable p && !(exclude.contains p))

/-- Modelled from the spec: `Board.get_contribution_positions(exclude,
min_level)` is called by the engine and the AI but missing from src
board.py (spec section 4.1: "all cells with level ≥ min_level", excluding
a given set), enumerated in the board's raster order. -/
def Board.contributionPositions (b : Board) (exclude : List Position)
    (minLevel : Int) : List Position :=
  gridFilter b.height b.width (fun p =>
    decide (minLevel ≤ (b.cellAt p).contributionLevel) && !(exclude.contains p))

/-- Modelled from the spec: `Board.count_contribution_cells()` is called by
the engine but missing from src board.py (spec section 4.1); the number of
cells with a positive contribution level. -/
def Board.countContributionCells (b : Board) : Nat :=
  (b.contributionPositions [] 1).length

/-- Modelled from the spec: `Board.consume_contribution(pos)` is called by
the engine but missing from src board.py (spec section 4.1: "zeroes a
cell's level, returns whether it had any"); a position without a cell or
without any level consumes nothing. -/
def Board.consumeContribution (b : Board) (p : Position) : Board × Bool :=
  if b.isValidPosition p && decide (0 < (b.cellAt p).contributionLevel) then
    (Board.mk b.width b.height (fun y x =>
      if y = p.y.toNat ∧ x = p.x.toNat then Cell.mk (b.cells y x).cellType 0
      else b.cells y x), true)
  else (b, false)

/-- The nearest-source-index computation of `Board.apply_contributions`:
`min(int(destIndex * srcSize / destSize), srcSize - 1)`. The Python float
division followed by `int` truncation is embedded as `Nat` floor division,
which agrees with it on the magnitudes in play. -/
def sampleIndex (destIndex srcSize destSize : Nat) : Nat :=
  min (destIndex * srcSize / destSize) (srcSize - 1)

/-- The source lookup `contributions[src_y][src_x]` of
`Board.apply_contributions`; `none` models an IndexError. -/
def sampleLevel (grid : List (List Int)) (srcW srcH w h x y : Nat) : Option Int :=
  (grid[sampleIndex y srcH h]?).bind (fun row => row[sampleIndex x srcW w]?)

/-- `Board.apply_contributions` from game/board.py: no-op on an empty grid
or a grid whose first row is empty; otherwise every board cell takes the
nearest-sampled level, and in walls mode a level at or above the threshold
turns the cell into a wall. `none` models the IndexError a ragged source
grid can raise. The successfully-resampled board is split out as
`appliedBoard` (the double loop body of `apply_contributions`). -/
def appliedBoard (b : Board) (mode : Mode) (wallThreshold : Int)
    (grid : List (List Int)) (srcW srcH : Nat) : Board :=
  Board.mk b.width b.height (fun y x =>
    if y < b.height && x < b.width then
      let level := (sampleLevel grid srcW srcH b.width b.height x y).getD 0
      Cell.mk
        (if mode = Mode.walls ∧ wallThreshold ≤ level then CellType.wall
         else (b.cells y x).cellType)
        level
    else b.cells y x)

/-- `Board.apply_contributions` itself: the guards plus `appliedBoard`. -/
def Board.applyContributions (b : Board) (mode : Mode) (wallThreshold : Int)
    (grid : List (List Int)) : Option Board :=
  match grid with
  | [] => some b
  | row0 :: _ =>
    if row0.isEmpty then some b
    else
      let srcH := grid.length
      let srcW := row0.length
      if (List.range b.height).all (fun y => (List.range b.width).all (fun x =>
           (sampleLevel grid srcW srcH b.width b.height x y).isSome)) then
        some (appliedBoard b mode wallThreshold grid srcW srcH)
      else none

/-- `FoodSpawner.spawn(occupied)` from game/food.py, with the mode
dispatch Modelled from the spec (section 4.4): src food.py lacks the
`mode` parameter its callers pass. In "food" mode candidates are the
cells with positive level outside `occupied`; otherwise all walkable
cells outside `occupied`. `rng.choice` over the candidate list is
embedded as selection by an index `k` reduced modulo the list length, so
a uniformly distributed `k` yields the uniform choice. -/
def spawnFood (b : Board) (mode : Mode) (occupied : List Position) (k : Nat) :
    Option Position :=
  let candidates :=
    if mode = Mode.food then b.contributionPositions occupied 1
    else b.emptyPositions occupied
  if candidates.isEmpty then none
  else candidates[k % candidates.length]?

/-- `FoodSpawner.spawn_if_needed(current, occupied)`: identity on an
existing target, otherwise a fresh spawn. -/
def spawnIfNeeded (b : Board) (mode : Mode) (current : Option Position)
    (occupied : List Position) (k : Nat) : Option Position :=
  match current with
  | some f => some f
  | none => spawnFood b mode occupied k

/-- `Snake` from game/snake.py: body list (head first), heading, grow flag. -/
structure Snake where
  body : List Position
  direction : Direction
  growing : Bool
deriving DecidableEq, Repr

/-- `Snake.head`: the body's first element (the Python code indexes
`body[0]`, which presumes a non-empty body). -/
def Snake.headPos (s : Snake) : Position :=
  s.body.headD (Position.mk 0 0)

/-- `Snake.tail`: the body's last element. -/
def Snake.tailPos (s : Snake) : Position :=
  s.body.getLastD (Position.mk 0 0)

/-- The direction actually adopted by `Snake.move(direction)`: a commanded
direction is taken unless it is the exact opposite of the current heading
while the body is longer than 1. -/
def Snake.newDirection (s : Snake) (d : Option Direction) : Direction :=
  match d with
  | none => s.direction
  | some dd => if dd ≠ s.direction.opposite ∨ s.body.length = 1 then dd else s.direction

/-- `Snake.move(direction)` from game/snake.py: update heading, push the new
head, and pop the tail unless `growing` was set (in which case clear it). -/
def Snake.move (s : Snake) (d : Option Direction) : Snake :=
  let dir := s.newDirection d
  let newHead := s.headPos + dir.value
  let body1 := newHead :: s.body
  if s.growing then
    Snake.mk body1 dir false
  else
    Snake.mk body1.dropLast dir s.growing

/-- `Snake.grow`: mark the snake to grow on the next move. -/
def Snake.grow (s : Snake) : Snake :=
  Snake.mk s.body s.direction true

/-- `Snake.get_body_positions` (a Python set; embedded as the body list,
with set membership becoming list membership). -/
def Snake.bodyPositions (s : Snake) : List Position :=
  s.body

/-- `Snake.collides_with_self`: head reoccurs among the later segments. -/
def Snake.collidesWithSelf (s : Snake) : Bool :=
  s.body.tail.contains s.headPos

/-- `Snake.create(start, length, direction)`: segments laid out backward
from the head along the opposite vector. -/
def Snake.create (start : Position) (length : Nat) (direction : Direction) : Snake :=
  let opp := direction.opposite.value
  Snake.mk
    ((List.range length).map (fun i =>
      Position.mk (start.x + opp.x * (i : Int)) (start.y + opp.y * (i : Int))))
    direction false

theorem Direction.opposite_ne (d : Direction) : d.opposite ≠ d := by
  cases d <;> simp [Direction.opposite]

theorem dropLast_cons_head {a : Position} {l : List Position} (h : l ≠ []) :
    (a :: l).dropLast.headD (Position.mk 0 0) = a := by
  cases l with
  | nil => exact absurd rfl h
  | cons b t => rfl

/-- C6: a snake of length > 1 commanded to reverse keeps its heading and
advances along it; a snake of length 1 commanded to reverse adopts the
opposite heading. -/
theorem snake_reverse_command (s : Snake) :
    (1 < s.body.length →
      (s.move (some s.direction.opposite)).direction = s.direction ∧
      (s.move (some s.direction.opposite)).headPos = s.headPos + s.direction.value) ∧
    (s.body.length = 1 →
      (s.move (some s.direction.opposite)).direction = s.direction.opposite) := by
  constructor
  · intro hlen
    have hne : s.body ≠ [] := by
      intro h
      rw [h] at hlen
      simp at hlen
    have hcond : s.newDirection (some s.direction.opposite) = s.direction := by
      have h1 : ¬ (s.direction.opposite ≠ s.direction.opposite ∨ s.body.length = 1) := by
        push_neg
        constructor
        · rfl
        · omega
      show (if s.direction.opposite ≠ s.direction.opposite ∨ s.body.length = 1
        then s.direction.opposite else s.direction) = s.direction
      rw [if_neg h1]
    constructor
    · unfold Snake.move
      by_cases hg : s.growing
      · simp only [hg, if_true]
        exact hcond
      · simp only [hg, if_neg, Bool.false_eq_true, not_false_iff, if_false]
        exact hcond
    · unfold Snake.move
      rw [hcond]
      by_cases hg : s.growing
      · simp only [hg, if_true]
        rfl
      · simp only [hg, Bool.false_eq_true, if_false]
        show (Snake.mk ((s.headPos + s.direction.value) :: s.body).dropLast
          (s.newDirection (some s.direction.opposite)) s.growing).headPos = _
        unfold Snake.headPos
        simp only
        exact dropLast_cons_head hne
  · intro hlen
    have hcond : s.newDirection (some s.direction.opposite) = s.direction.opposite := by
      show (if s.direction.opposite ≠ s.direction.opposite ∨ s.body.length = 1
        then s.direction.opposite else s.direction) = s.direction.opposite
      rw [if_pos (Or.inr hlen)]
    unfold Snake.move
    by_cases hg : s.growing
    · simp only [hg, if_true]
      exact hcond
    · simp only [hg, Bool.false_eq_true, if_false]
      exact hcond

/-- C6 witness: evaluated on a length-3 snake heading right and on a
length-1 snake heading right, both commanded to move left. -/
theorem snake_reverse_command_witness :
    (1 < (Snake.create (Position.mk 5 5) 3 Direction.right).body.length ∧
      ((Snake.create (Position.mk 5 5) 3 Direction.right).move
        (some Direction.left)).direction = Direction.right) ∧
    ((Snake.create (Position.mk 5 5) 1 Direction.right).body.length = 1 ∧
      ((Snake.create (Position.mk 5 5) 1 Direction.right).move
        (some Direction.left)).direction = Direction.left) := by
  refine ⟨⟨by decide, ?_⟩, ⟨by decide, ?_⟩⟩
  · have h := (snake_reverse_command (Snake.create (Position.mk 5 5) 3 Direction.right)).1
      (by decide)
    exact h.1
  · have h := (snake_reverse_command (Snake.create (Position.mk 5 5) 1 Direction.right)).2
      (by decide)
    exact h

/-- C7: `move` keeps the length when `growing` is unset, adds exactly one
segment and clears the flag when it was set, and in both cases the new head
is the old head plus the adopted heading's vector. -/
theorem snake_move_length (s : Snake) (d : Option Direction) (h : s.body ≠ []) :
    (s.growing = false → (s.move d).body.length = s.body.length) ∧
    (s.growing = true →
      (s.move d).body.length = s.body.length + 1 ∧ (s.move d).growing = false) ∧
    (s.move d).headPos = s.headPos + (s.newDirection d).value := by
  refine ⟨?_, ?_, ?_⟩
  · intro hg
    unfold Snake.move
    simp only [hg, Bool.false_eq_true, if_false]
    simp [List.length_dropLast]
  · intro hg
    unfold Snake.move
    simp only [hg, if_true]
    simp
  · unfold Snake.move
    by_cases hg : s.growing
    · simp only [hg, if_true]
      rfl
    · simp only [hg, Bool.false_eq_true, if_false]
      show (Snake.mk ((s.headPos + (s.newDirection d).value) :: s.body).dropLast
        (s.newDirection d) s.growing).headPos = _
      unfold Snake.headPos
      simp only
      exact dropLast_cons_head h

/-- C7 witness: a length-3 snake moving up without growth keeps length 3;
the same snake grown then moved reaches length 4 with the flag cleared. -/
theorem snake_move_length_witness :
    ((Snake.create (Position.mk 5 5) 3 Direction.right).body ≠ [] ∧
      ((Snake.create (Position.mk 5 5) 3 Direction.right).move
        (some Direction.up)).body.length = 3) ∧
    (((Snake.create (Position.mk 5 5) 3 Direction.right).grow).body ≠ [] ∧
      (((Snake.create (Position.mk 5 5) 3 Direction.right).grow).move
        (some Direction.up)).body.length = 4) := by
  refine ⟨⟨by decide, ?_⟩, ⟨by decide, ?_⟩⟩
  · have h := snake_move_length (Snake.create (Position.mk 5 5) 3 Direction.right)
      (some Direction.up) (by decide)
    have h1 := h.1 (by decide)
    rw [h1]
    decide
  · have h := snake_move_length ((Snake.create (Position.mk 5 5) 3 Direction.right).grow)
      (some Direction.up) (by decide)
    have h1 := (h.2.1 (by decide)).1
    rw [h1]
    decide

/-- `CollisionType` from game/collision.py. -/
inductive CollisionType where
  | none
  | wall
  | boundary
  | selfHit
deriving DecidableEq, Repr

/-- `CollisionDetector.check_snake_collision`: boundary, then wall, then
self collision, in that priority order. -/
def checkSnakeCollision (b : Board) (s : Snake) : CollisionType :=
  if b.isValidPosition s.headPos = false then CollisionType.boundary
  else if b.isWalkable s.headPos = false then CollisionType.wall
  else if s.collidesWithSelf then CollisionType.selfHit
  else CollisionType.none

/-- `CollisionDetector.check_food_collision`: head on the food cell. -/
def checkFoodCollision (s : Snake) (food : Option Position) : Bool :=
  match food with
  | none => false
  | some f => s.headPos = f

/-- `get_neighbors` from ai/pathfinding.py, in the fixed order
UP, DOWN, LEFT, RIGHT. -/
def getNeighbors (p : Position) : List (Position × Direction) :=
  [(p + Direction.up.value, Direction.up),
   (p + Direction.down.value, Direction.down),
   (p + Direction.left.value, Direction.left),
   (p + Direction.right.value, Direction.right)]

/-- One step of the inner neighbor loop of `bfs_path`: either an early
return with a completed path (the neighbor is the target, checked before
walkability and obstacles), or the accumulated queue additions together
with the enlarged visited set. -/
def bfsExpand (b : Board) (target : Position) (obstacles : List Position)
    (path : List Direction) :
    List (Position × Direction) → List Position →
    Sum (List Direction) (List (Position × List Direction) × List Position)
  | [], visited => Sum.inr ([], visited)
  | (n, d) :: rest, visited =>
    if visited.contains n then bfsExpand b target obstacles path rest visited
    else if n = target then Sum.inl (path ++ [d])
    else if b.isWalkable n = false then bfsExpand b target obstacles path rest visited
    else if obstacles.contains n then bfsExpand b target obstacles path rest visited
    else
      match bfsExpand b target obstacles path rest (n :: visited) with
      | Sum.inl res => Sum.inl res
      | Sum.inr (adds, visited') => Sum.inr ((n, path ++ [d]) :: adds, visited')

/-- The queue loop of `bfs_path`, with explicit fuel. Each iteration
dequeues one entry, and every position is enqueued at most once (guarded by
the visited set), so `width * height + 2` initial fuel is never exhausted
before the queue empties: the fuel-zero branch mirrors no Python behaviour
and is unreachable from `bfsPath`. -/
def bfsAux (b : Board) (target : Position) (obstacles : List Position) :
    Nat → List (Position × List Direction) → List Position → Option (List Direction)
  | 0, _, _ => none
  | _ + 1, [], _ => none
  | fuel + 1, (current, path) :: rest, visited =>
    match bfsExpand b target obstacles path (getNeighbors current) visited with
    | Sum.inl res => some res
    | Sum.inr (adds, visited') => bfsAux b target obstacles fuel (rest ++ adds) visited'

/-- `bfs_path` from ai/pathfinding.py: shortest path by BFS, `some []` when
start equals target, `none` when unreachable. -/
def bfsPath (start target : Position) (b : Board) (obstacles : List Position) :
    Option (List Direction) :=
  if start = target then some []
  else bfsAux b target obstacles (b.width * b.height + 2) [(start, [])] [start]

/-- The obstacle set used by `find_safe_moves` and by the AI strategies'
BFS calls: body minus tail, plus the tail if growing. -/
def obstaclesForMove (s : Snake) : List Position :=
  s.body.dropLast ++ (if s.growing then [s.tailPos] else [])

/-- `find_safe_moves` from ai/pathfinding.py: directions (in enum order)
that are not the forbidden reverse, lead to a walkable cell, and do not hit
the post-move body. -/
def findSafeMoves (s : Snake) (b : Board) : List Direction :=
  let bodyPos := obstaclesForMove s
  [Direction.up, Direction.down, Direction.left, Direction.right].filter (fun d =>
    !(d == s.direction.opposite && decide (1 < s.body.length)) &&
    b.isWalkable (s.headPos + d.value) &&
    !(bodyPos.contains (s.headPos + d.value)))

/-- The inner neighbor loop of `count_reachable_cells`: queue additions and
the enlarged visited set. -/
def floodExpand (b : Board) (obstacles : List Position) :
    List (Position × Direction) → List Position → List Position × List Position
  | [], visited => ([], visited)
  | (n, _) :: rest, visited =>
    if visited.contains n || b.isWalkable n = false || obstacles.contains n then
      floodExpand b obstacles rest visited
    else
      let res := floodExpand b obstacles rest (n :: visited)
      (n :: res.1, res.2)

/-- The counting loop of `count_reachable_cells`. The fuel is exactly
`max_count - count`, so fuel zero is precisely the Python loop condition
`count < max_count` failing. -/
def countReachableAux (b : Board) (obstacles : List Position) :
    Nat → List Position → List Position → Nat → Nat
  | 0, _, _, count => count
  | _ + 1, [], _, count => count
  | fuel + 1, current :: rest, visited, count =>
    let ev := floodExpand b obstacles (getNeighbors current) visited
    countReachableAux b obstacles fuel (rest ++ ev.1) ev.2 (count + 1)

/-- `count_reachable_cells` from ai/pathfinding.py: capped flood-fill size;
the start cell itself is placed on the queue and counted without any
walkability or obstacle test. -/
def countReachableCells (start : Position) (b : Board) (obstacles : List Position)
    (maxCount : Nat) : Nat :=
  countReachableAux b obstacles maxCount [start] [start] 0

/-- `evaluate_move_safety` from ai/pathfinding.py: reachable-cell count
from the prospective head, obstacles = body minus tail plus head plus
tail-if-growing, with the default cap of 1000. -/
def evaluateMoveSafety (s : Snake) (d : Direction) (b : Board) : Nat :=
  let newBody := s.headPos :: (s.body.dropLast ++ (if s.growing then [s.tailPos] else []))
  countReachableCells (s.headPos + d.value) b newBody 1000

theorem countReachableAux_ge_count (b : Board) (obstacles : List Position) :
    ∀ (fuel : Nat) (queue visited : List Position) (count : Nat),
      count ≤ countReachableAux b obstacles fuel queue visited count := by
  intro fuel
  induction fuel with
  | zero => intro queue visited count; simp [countReachableAux]
  | succ n ih =>
    intro queue visited count
    cases queue with
    | nil => simp [countReachableAux]
    | cons current rest =>
      calc count ≤ count + 1 := Nat.le_succ count
        _ ≤ _ := ih _ _ (count + 1)

/-- C10: `count_reachable_cells` counts the start cell unconditionally, so
its result is at least 1 whenever `max_count ≥ 1`; consequently
`evaluate_move_safety` scores every direction at least 1, with no
hypothesis on the prospective head cell (it may be a wall, out of bounds,
or inside the body). -/
theorem count_reachable_counts_start :
    (∀ (start : Position) (b : Board) (obstacles : List Position) (maxCount : Nat),
      1 ≤ maxCount → 1 ≤ countReachableCells start b obstacles maxCount) ∧
    (∀ (s : Snake) (d : Direction) (b : Board), 1 ≤ evaluateMoveSafety s d b) := by
  have key : ∀ (start : Position) (b : Board) (obstacles : List Position) (maxCount : Nat),
      1 ≤ maxCount → 1 ≤ countReachableCells start b obstacles maxCount := by
    intro start b obstacles maxCount h
    obtain ⟨m, rfl⟩ : ∃ m, maxCount = m + 1 := ⟨maxCount - 1, by omega⟩
    unfold countReachableCells countReachableAux
    exact countReachableAux_ge_count b obstacles m _ _ 1
  exact ⟨key, fun s d b => key _ _ _ 1000 (by omega)⟩

/-- C10 witness: a start cell far outside a 2×2 board still counts as 1
reachable cell, and a move straight out of the board still scores ≥ 1. -/
theorem count_reachable_counts_start_witness :
    1 ≤ countReachableCells (Position.mk (-5) (-5)) (mkBoard 2 2) [] 7 ∧
    1 ≤ evaluateMoveSafety (Snake.create (Position.mk 0 0) 1 Direction.right)
      Direction.up (mkBoard 2 2) := by
  constructor
  · exact count_reachable_counts_start.1 (Position.mk (-5) (-5)) (mkBoard 2 2) [] 7
      (by decide)
  · exact count_reachable_counts_start.2 (Snake.create (Position.mk 0 0) 1 Direction.right)
      Direction.up (mkBoard 2 2)

theorem mem_gridFilter (height width : Nat) (pred : Position → Bool) (p : Position) :
    p ∈ gridFilter height width pred ↔
      0 ≤ p.x ∧ p.x < (width : Int) ∧ 0 ≤ p.y ∧ p.y < (height : Int) ∧ pred p = true := by
  unfold gridFilter
  simp only [List.mem_flatMap, List.mem_filterMap, List.mem_range]
  constructor
  · rintro ⟨y, hy, x, hx, hif⟩
    by_cases hc : pred (Position.mk (Int.ofNat x) (Int.ofNat y)) = true
    · rw [if_pos hc] at hif
      cases hif
      refine ⟨?_, ?_, ?_, ?_, hc⟩
      · show (0 : Int) ≤ Int.ofNat x
        simp only [Int.ofNat_eq_natCast]
        omega
      · show (Int.ofNat x) < (width : Int)
        simp only [Int.ofNat_eq_natCast]
        omega
      · show (0 : Int) ≤ Int.ofNat y
        simp only [Int.ofNat_eq_natCast]
        omega
      · show (Int.ofNat y) < (height : Int)
        simp only [Int.ofNat_eq_natCast]
        omega
    · rw [if_neg hc] at hif
      cases hif
  · rintro ⟨hx0, hxw, hy0, hyh, hpred⟩
    refine ⟨p.y.toNat, ?_, p.x.toNat, ?_, ?_⟩
    · omega
    · omega
    · have hp : Position.mk (Int.ofNat p.x.toNat) (Int.ofNat p.y.toNat) = p := by
        cases p with
        | mk px py =>
          simp only [Position.mk.injEq]
          constructor
          · exact Int.toNat_of_nonneg hx0
          · exact Int.toNat_of_nonneg hy0
      rw [hp, if_pos hpred]

theorem mem_emptyPositions (b : Board) (exclude : List Position) (p : Position) :
    p ∈ b.emptyPositions exclude ↔
      b.isWalkable p = true ∧ exclude.contains p = false := by
  unfold Board.emptyPositions
  rw [mem_gridFilter]
  constructor
  · rintro ⟨_, _, _, _, hpred⟩
    simp only [Bool.and_eq_true, Bool.not_eq_true'] at hpred
    exact hpred
  · rintro ⟨hw, hc⟩
    have hv : b.isValidPosition p = true := by
      unfold Board.isWalkable at hw
      simp only [Bool.and_eq_true] at hw
      exact hw.1
    unfold Board.isValidPosition at hv
    simp only [Bool.and_eq_true, decide_eq_true_eq] at hv
    have hnm : p ∉ exclude := by simpa using hc
    refine ⟨hv.1.1.1, hv.1.1.2, hv.1.2, hv.2, ?_⟩
    simp [hw, hnm]

theorem mem_contributionPositions (b : Board) (exclude : List Position)
    (minLevel : Int) (p : Position) :
    p ∈ b.contributionPositions exclude minLevel ↔
      b.isValidPosition p = true ∧ minLevel ≤ (b.cellAt p).contributionLevel ∧
        exclude.contains p = false := by
  unfold Board.contributionPositions
  rw [mem_gridFilter]
  constructor
  · rintro ⟨hx0, hxw, hy0, hyh, hpred⟩
    simp only [Bool.and_eq_true, decide_eq_true_eq, Bool.not_eq_true'] at hpred
    refine ⟨?_, hpred.1, hpred.2⟩
    unfold Board.isValidPosition
    simp only [Bool.and_eq_true, decide_eq_true_eq]
    exact ⟨⟨⟨hx0, hxw⟩, hy0⟩, hyh⟩
  · rintro ⟨hv, hl, hc⟩
    unfold Board.isValidPosition at hv
    simp only [Bool.and_eq_true, decide_eq_true_eq] at hv
    have hnm : p ∉ exclude := by simpa using hc
    refine ⟨hv.1.1.1, hv.1.1.2, hv.1.2, hv.2, ?_⟩
    simp [hl, hnm]

/-- A rectangular non-empty source grid can always be sampled in bounds. -/
theorem sampleLevel_isSome_of_rect (grid : List (List Int)) (row0 : List Int)
    (rest : List (List Int)) (hg : grid = row0 :: rest) (hne : row0 ≠ [])
    (hrect : ∀ row ∈ grid, row.length = row0.length) (w h x y : Nat) :
    (sampleLevel grid row0.length grid.length w h x y).isSome = true := by
  have hlen : 0 < grid.length := by rw [hg]; simp
  have hsy : sampleIndex y grid.length h < grid.length := by
    unfold sampleIndex
    omega
  have hrow : grid[sampleIndex y grid.length h]? =
      some grid[sampleIndex y grid.length h] := List.getElem?_eq_getElem hsy
  unfold sampleLevel
  rw [hrow]
  have hrl : grid[sampleIndex y grid.length h].length = row0.length :=
    hrect _ (List.getElem_mem hsy)
  have hw0 : 0 < row0.length := List.length_pos.mpr hne
  have hsx : sampleIndex x row0.length w < grid[sampleIndex y grid.length h].length := by
    rw [hrl]
    unfold sampleIndex
    omega
  rw [Option.some_bind, List.getElem?_eq_getElem hsx]
  rfl

/-- C5 counterexample: the ragged grid `[[1], []]` applied to a default
1×2 board is not a no-op — the sampling for the second board row indexes
the empty source row and the code raises, embedded as `none`. -/
theorem apply_contributions_ragged_raises :
    Board.applyContributions (mkBoard 1 2) Mode.walls 5 [[1], []] = none := by
  rfl

/-- C5 as amended: an empty source grid, or one whose first row is empty,
leaves the board unchanged and raises nothing; and on a non-empty
*rectangular* source grid the sampling indices never leave the source
grid's bounds, so application always succeeds. (The original claim also
promised tolerance of ragged grids, which the code does not give.) -/
theorem apply_contributions_edge_policy (b : Board) (mode : Mode)
    (wallThreshold : Int) :
    (Board.applyContributions b mode wallThreshold [] = some b) ∧
    (∀ rest : List (List Int),
      Board.applyContributions b mode wallThreshold ([] :: rest) = some b) ∧
    (∀ (grid : List (List Int)) (row0 : List Int) (rest : List (List Int)),
      grid = row0 :: rest → row0 ≠ [] →
      (∀ row ∈ grid, row.length = row0.length) →
      (Board.applyContributions b mode wallThreshold grid).isSome = true) := by
  refine ⟨rfl, fun rest => rfl, ?_⟩
  intro grid row0 rest hg hne hrect
  subst hg
  have hoe : row0.isEmpty = false := by
    cases row0 with
    | nil => exact absurd rfl hne
    | cons a t => rfl
  simp only [Board.applyContributions, hoe, Bool.false_eq_true, if_false]
  have hall : (List.range b.height).all (fun y => (List.range b.width).all (fun x =>
      (sampleLevel (row0 :: rest) row0.length (row0 :: rest).length
        b.width b.height x y).isSome)) = true := by
    rw [List.all_eq_true]
    intro y _
    rw [List.all_eq_true]
    intro x _
    exact sampleLevel_isSome_of_rect (row0 :: rest) row0 rest rfl hne hrect
      b.width b.height x y
  rw [if_pos hall]
  rfl

/-- C5 witness: the amended theorem applied to the concrete rectangular
grid `[[1, 2], [3, 4]]` on a 2×2 board succeeds. -/
theorem apply_contributions_edge_policy_witness :
    (Board.applyContributions (mkBoard 2 2) Mode.walls 5 [] = some (mkBoard 2 2)) ∧
    (Board.applyContributions (mkBoard 2 2) Mode.walls 5
      [[1, 2], [3, 4]]).isSome = true := by
  constructor
  · exact (apply_contributions_edge_policy (mkBoard 2 2) Mode.walls 5).1
  · exact (apply_contributions_edge_policy (mkBoard 2 2) Mode.walls 5).2.2
      [[1, 2], [3, 4]] [1, 2] [[3, 4]] rfl (by decide) (by decide)

theorem applyContributions_eq_appliedBoard (b : Board) (mode : Mode)
    (wallThreshold : Int) (row0 : List Int) (rest : List (List Int))
    (hne : row0 ≠ [])
    (hall : ((List.range b.height).all (fun y => (List.range b.width).all (fun x =>
      (sampleLevel (row0 :: rest) row0.length (row0 :: rest).length
        b.width b.height x y).isSome))) = true) :
    Board.applyContributions b mode wallThreshold (row0 :: rest) =
      some (appliedBoard b mode wallThreshold (row0 :: rest)
        row0.length (row0 :: rest).length) := by
  have hoe : row0.isEmpty = false := by
    cases row0 with
    | nil => exact absurd rfl hne
    | cons a t => rfl
  simp only [Board.applyContributions, hoe, Bool.false_eq_true, if_false]
  rw [if_pos hall]

/-- C9: applying an S×S rectangular source grid to an S×S board succeeds
and reproduces the source levels exactly — the nearest-source-index
resampling is the identity when dimensions match. -/
theorem apply_contributions_identity (S : Nat) (hS : 0 < S) (b : Board)
    (hw : b.width = S) (hh : b.height = S) (mode : Mode) (wallThreshold : Int)
    (grid : List (List Int)) (hlen : grid.length = S)
    (hrect : ∀ row ∈ grid, row.length = S) :
    ∃ b', Board.applyContributions b mode wallThreshold grid = some b' ∧
      ∀ y x : Nat, y < S → x < S →
        (b'.cells y x).contributionLevel = (grid.getD y []).getD x 0 := by
  obtain ⟨row0, rest, hg⟩ : ∃ row0 rest, grid = row0 :: rest := by
    cases grid with
    | nil => simp at hlen; omega
    | cons a t => exact ⟨a, t, rfl⟩
  have hrow0 : row0.length = S := hrect row0 (by rw [hg]; exact List.mem_cons_self row0 rest)
  have hne : row0 ≠ [] := by
    intro h
    rw [h] at hrow0
    simp at hrow0
    omega
  have hrect' : ∀ row ∈ grid, row.length = row0.length := by
    intro row hr
    rw [hrect row hr, hrow0]
  subst hg
  have hall : ((List.range b.height).all (fun y => (List.range b.width).all (fun x =>
      (sampleLevel (row0 :: rest) row0.length (row0 :: rest).length
        b.width b.height x y).isSome))) = true := by
    rw [List.all_eq_true]
    intro y _
    rw [List.all_eq_true]
    intro x _
    exact sampleLevel_isSome_of_rect (row0 :: rest) row0 rest rfl hne hrect'
      b.width b.height x y
  refine ⟨_, applyContributions_eq_appliedBoard b mode wallThreshold row0 rest hne hall, ?_⟩
  intro y x hy hx
  have hsi : ∀ i : Nat, i < S → sampleIndex i S S = i := by
    intro i hi
    unfold sampleIndex
    have h1 : i * S / S = i := Nat.mul_div_cancel i hS
    rw [h1]
    omega
  have hyL : y < (row0 :: rest).length := by omega
  have hxL : x < ((row0 :: rest)[y]).length := by
    rw [hrect _ (List.getElem_mem hyL)]
    exact hx
  have hrhs : ((row0 :: rest).getD y []).getD x 0 = ((row0 :: rest)[y])[x] := by
    rw [List.getD_eq_getElem _ _ hyL, List.getD_eq_getElem _ _ hxL]
  rw [hrhs]
  simp only [appliedBoard]
  have hc : (decide (y < b.height) && decide (x < b.width)) = true := by
    simp only [Bool.and_eq_true, decide_eq_true_eq]
    omega
  rw [if_pos hc]
  show (sampleLevel (row0 :: rest) row0.length (row0 :: rest).length
    b.width b.height x y).getD 0 = ((row0 :: rest)[y])[x]
  rw [hrow0, hlen, hw, hh]
  unfold sampleLevel
  rw [hsi y hy, hsi x hx, List.getElem?_eq_getElem hyL, Option.some_bind,
    List.getElem?_eq_getElem hxL]
  rfl

/-- C9 witness: the identity theorem applied to the concrete 2×2 grid
`[[1, 2], [3, 4]]` on a 2×2 board. -/
theorem apply_contributions_identity_witness :
    ∃ b', Board.applyContributions (mkBoard 2 2) Mode.food 5 [[1, 2], [3, 4]] = some b' ∧
      ∀ y x : Nat, y < 2 → x < 2 →
        (b'.cells y x).contributionLevel = (([[1, 2], [3, 4]] :
          List (List Int)).getD y []).getD x 0 :=
  apply_contributions_identity 2 (by decide) (mkBoard 2 2) rfl rfl Mode.food 5
    [[1, 2], [3, 4]] (by decide) (by decide)

/-- `rng.choice` embedded as index selection: `none` exactly on the empty
list, every result is a member, and every member is some index's result. -/
theorem spawn_select (cs : List Position) (k : Nat) :
    ((if cs.isEmpty then none else cs[k % cs.length]?) = none ↔ cs = []) ∧
    (∀ p, (if cs.isEmpty then none else cs[k % cs.length]?) = some p → p ∈ cs) ∧
    (∀ p ∈ cs, ∃ j, (if cs.isEmpty then none else cs[j % cs.length]?) = some p) := by
  refine ⟨?_, ?_, ?_⟩
  · constructor
    · intro h
      by_cases he : cs.isEmpty
      · exact List.isEmpty_iff.mp he
      · rw [if_neg he] at h
        have hlen : 0 < cs.length := by
          cases cs with
          | nil => exact absurd rfl he
          | cons a t => simp
        rw [List.getElem?_eq_getElem (Nat.mod_lt _ hlen)] at h
        cases h
    · intro h
      subst h
      simp
  · intro p hp
    by_cases he : cs.isEmpty
    · rw [if_pos he] at hp
      cases hp
    · rw [if_neg he] at hp
      exact List.getElem?_mem hp
  · intro p hp
    obtain ⟨i, hi, hip⟩ := List.mem_iff_getElem.mp hp
    refine ⟨i, ?_⟩
    have he : cs.isEmpty = false := by
      cases cs with
      | nil => cases hp
      | cons a t => rfl
    rw [he]
    simp only [Bool.false_eq_true, if_false]
    rw [Nat.mod_eq_of_lt hi, List.getElem?_eq_getElem hi, hip]

/-- C3: `FoodSpawner.spawn` draws (via the uniform index oracle) from
exactly the mode's eligible pool: in food mode the cells with positive
contribution level outside `occupied`, returning None precisely when none
remain; in walls/speed modes the walkable cells outside `occupied`. -/
theorem food_spawner_modes (b : Board) (mode : Mode) (occupied : List Position)
    (k : Nat) :
    (mode = Mode.food →
      ((spawnFood b mode occupied k = none ↔
         ∀ p : Position, b.isValidPosition p = true →
           0 < (b.cellAt p).contributionLevel → occupied.contains p = true) ∧
       (∀ p, spawnFood b mode occupied k = some p →
         b.isValidPosition p = true ∧ 0 < (b.cellAt p).contributionLevel ∧
           occupied.contains p = false) ∧
       (∀ p, b.isValidPosition p = true → 0 < (b.cellAt p).contributionLevel →
         occupied.contains p = false → ∃ j, spawnFood b mode occupied j = some p))) ∧
    (mode ≠ Mode.food →
      ((spawnFood b mode occupied k = none ↔
         ∀ p : Position, b.isWalkable p = true → occupied.contains p = true) ∧
       (∀ p, spawnFood b mode occupied k = some p →
         b.isWalkable p = true ∧ occupied.contains p = false) ∧
       (∀ p, b.isWalkable p = true → occupied.contains p = false →
         ∃ j, spawnFood b mode occupied j = some p))) := by
  constructor
  · intro hm
    subst hm
    have hcs : ∀ j : Nat, spawnFood b Mode.food occupied j =
        (if (b.contributionPositions occupied 1).isEmpty then none
         else (b.contributionPositions occupied 1)[j %
           (b.contributionPositions occupied 1).length]?) := by
      intro j
      simp [spawnFood]
    have hmem : ∀ p : Position, p ∈ b.contributionPositions occupied 1 ↔
        (b.isValidPosition p = true ∧ 0 < (b.cellAt p).contributionLevel ∧
          occupied.contains p = false) := by
      intro p
      rw [mem_contributionPositions]
      constructor
      · rintro ⟨h1, h2, h3⟩
        exact ⟨h1, by omega, h3⟩
      · rintro ⟨h1, h2, h3⟩
        exact ⟨h1, by omega, h3⟩
    refine ⟨?_, ?_, ?_⟩
    · rw [hcs k, (spawn_select _ k).1, List.eq_nil_iff_forall_not_mem]
      constructor
      · intro h p hv hl
        by_contra hc
        have hcf : occupied.contains p = false := by
          cases hcc : occupied.contains p
          · rfl
          · exact absurd hcc hc
        exact h p ((hmem p).mpr ⟨hv, hl, hcf⟩)
      · intro h p hp
        obtain ⟨h1, h2, h3⟩ := (hmem p).mp hp
        rw [h p h1 h2] at h3
        cases h3
    · intro p hp
      rw [hcs k] at hp
      exact (hmem p).mp ((spawn_select _ k).2.1 p hp)
    · intro p h1 h2 h3
      obtain ⟨j, hj⟩ := (spawn_select (b.contributionPositions occupied 1) k).2.2 p
        ((hmem p).mpr ⟨h1, h2, h3⟩)
      refine ⟨j, ?_⟩
      rw [hcs j]
      exact hj
  · intro hm
    have hcs : ∀ j : Nat, spawnFood b mode occupied j =
        (if (b.emptyPositions occupied).isEmpty then none
         else (b.emptyPositions occupied)[j % (b.emptyPositions occupied).length]?) := by
      intro j
      simp [spawnFood, hm]
    refine ⟨?_, ?_, ?_⟩
    · rw [hcs k, (spawn_select _ k).1, List.eq_nil_iff_forall_not_mem]
      constructor
      · intro h p hv
        by_contra hc
        have hcf : occupied.contains p = false := by
          cases hcc : occupied.contains p
          · rfl
          · exact absurd hcc hc
        exact h p ((mem_emptyPositions b occupied p).mpr ⟨hv, hcf⟩)
      · intro h p hp
        obtain ⟨h1, h3⟩ := (mem_emptyPositions b occupied p).mp hp
        rw [h p h1] at h3
        cases h3
    · intro p hp
      rw [hcs k] at hp
      exact (mem_emptyPositions b occupied p).mp ((spawn_select _ k).2.1 p hp)
    · intro p h1 h3
      obtain ⟨j, hj⟩ := (spawn_select (b.emptyPositions occupied) k).2.2 p
        ((mem_emptyPositions b occupied p).mpr ⟨h1, h3⟩)
      refine ⟨j, ?_⟩
      rw [hcs j]
      exact hj

/-- A 2×2 board whose only contribution cell is (1, 0) at level 3,
used to evaluate the spawner characterization. -/
def fsBoard : Board :=
  Board.mk 2 2 (fun y x =>
    if y = 0 ∧ x = 1 then Cell.mk CellType.empty 3 else Cell.mk CellType.empty 0)

/-- C3 witness: on `fsBoard` in food mode, the one contribution cell is
reachable by some index, and in walls mode a spawn at index 0 yields a
walkable unoccupied cell. -/
theorem food_spawner_modes_witness :
    (∃ j, spawnFood fsBoard Mode.food [] j = some (Position.mk 1 0)) ∧
    (spawnFood fsBoard Mode.walls [] 0 = some (Position.mk 0 0) →
      fsBoard.isWalkable (Position.mk 0 0) = true ∧
        ([] : List Position).contains (Position.mk 0 0) = false) := by
  constructor
  · exact ((food_spawner_modes fsBoard Mode.food [] 0).1 rfl).2.2 (Position.mk 1 0)
      (by decide) (by decide) (by decide)
  · exact fun h => ((food_spawner_modes fsBoard Mode.walls [] 0).2 (by decide)).2.1
      (Position.mk 0 0) h

/-- `GameStatus`: "running", "won", "collision", "timeout". -/
inductive Status where
  | running
  | won
  | collision
  | timeout
deriving DecidableEq, Repr

/-- The spawn-position strategy names accepted by the engine. -/
inductive SpawnStrategy where
  | lowerHalfRandom
  | bottomCenter
  | center
  | legacyLeft
deriving DecidableEq, Repr

/-- `Config` from config.py restricted to the fields the game core reads.
The `spawnPosition` field is Modelled from the spec (section 6,
"spawn-position strategy name"): src config.py predates it although
engine.py reads `config.spawn_position`. -/
structure Config where
  width : Nat
  height : Nat
  mode : Mode
  wallThreshold : Int
  initialLength : Nat
  maxTicks : Nat
  spawnPosition : SpawnStrategy
deriving Repr

/-- The engine's own mutable fields (game/engine.py). -/
structure EngineState where
  board : Board
  snake : Snake
  food : Option Position
  score : Nat
  tick : Nat
  status : Status

/-- `GameState` from game/engine.py: the per-tick snapshot. -/
structure GameState where
  board : Board
  snake : Snake
  food : Option Position
  score : Nat
  tick : Nat
  status : Status

/-- `GameEngine.get_state`. -/
def getState (s : EngineState) : GameState :=
  GameState.mk s.board s.snake s.food s.score s.tick s.status

/-- The status chosen by the tail of `GameEngine.step` (food-mode win
check, then generic board-saturation win check, then timeout backstop);
the four outcomes build states differing only in this field. -/
def finishStatus (cfg : Config) (board1 : Board) (snake2 : Snake)
    (food2 : Option Position) (tick1 : Nat) : Status :=
  if cfg.mode = Mode.food ∧ food2 = none ∧ board1.countContributionCells = 0 then
    Status.won
  else if food2 = none ∧ board1.emptyPositions snake2.bodyPositions = [] then
    Status.won
  else if cfg.maxTicks ≤ tick1 then
    Status.timeout
  else
    Status.running

/-- `GameEngine.step` from game/engine.py: no-op on a terminal status;
otherwise move, check collision, apply mode-specific consumption, refill
the target via the spawner (index oracle `k` standing for the seeded rng),
then the win/timeout checks. -/
def step (cfg : Config) (s : EngineState) (d : Option Direction) (k : Nat) :
    EngineState :=
  if s.status ≠ Status.running then s
  else
    let snake1 := s.snake.move d
    let tick1 := s.tick + 1
    if checkSnakeCollision s.board snake1 ≠ CollisionType.none then
      EngineState.mk s.board snake1 s.food s.score tick1 Status.collision
    else
      let consumeRes :=
        if cfg.mode = Mode.food then
          let bc := s.board.consumeContribution snake1.headPos
          if bc.2 then
            (bc.1, snake1.grow, s.score + 1,
              if s.food = some snake1.headPos then none else s.food)
          else (bc.1, snake1, s.score, s.food)
        else
          if checkFoodCollision snake1 s.food then
            (s.board, snake1.grow, s.score + 1, (none : Option Position))
          else (s.board, snake1, s.score, s.food)
      let board1 := consumeRes.1
      let snake2 := consumeRes.2.1
      let score1 := consumeRes.2.2.1
      let food1 := consumeRes.2.2.2
      let food2 := spawnIfNeeded board1 cfg.mode food1 snake2.bodyPositions k
      EngineState.mk board1 snake2 food2 score1 tick1
        (finishStatus cfg board1 snake2 food2 tick1)

/-- C8: `step` on a terminal-status engine changes nothing: the state is
returned as-is (so every field and the snapshot are unchanged), repeated
calls are idempotent, and no transition leaves a terminal state. -/
theorem engine_step_terminal_noop (cfg : Config) (s : EngineState)
    (d : Option Direction) (k : Nat) (h : s.status ≠ Status.running) :
    step cfg s d k = s ∧ getState (step cfg s d k) = getState s ∧
    step cfg (step cfg s d k) d k = s ∧ (step cfg s d k).status = s.status := by
  have h1 : step cfg s d k = s := by
    unfold step
    rw [if_pos h]
  refine ⟨h1, by rw [h1], by rw [h1, h1], by rw [h1]⟩

/-- A concrete configuration used by the engine witnesses. -/
def testCfg : Config :=
  Config.mk 4 4 Mode.food 5 3 500 SpawnStrategy.bottomCenter

/-- A terminal (collision) engine state on a 2×2 board. -/
def termState : EngineState :=
  EngineState.mk (mkBoard 2 2) (Snake.create (Position.mk 0 0) 1 Direction.right)
    none 0 0 Status.collision

/-- C8 witness: stepping the concrete collided engine is the identity. -/
theorem engine_step_terminal_noop_witness :
    termState.status ≠ Status.running ∧ step testCfg termState none 0 = termState := by
  refine ⟨by decide, ?_⟩
  exact (engine_step_terminal_noop testCfg termState none 0 (by decide)).1

/-- C1: in food mode, a running `step` whose move does not collide
consumes the cell under the new head exactly when its level is positive:
the cell is zeroed, the grow flag is set (so the following move lengthens
the body by one), the score rises by exactly 1, and the tracked target is
cleared precisely when it is the consumed cell (the spawner then refilling
the slot); on a level-0 head cell the board, snake flags and score are
untouched. -/
theorem engine_step_food_consumption (cfg : Config) (s : EngineState)
    (d : Option Direction) (k : Nat)
    (hm : cfg.mode = Mode.food) (hr : s.status = Status.running)
    (hc : checkSnakeCollision s.board (s.snake.move d) = CollisionType.none) :
    (0 < (s.board.cellAt (s.snake.move d).headPos).contributionLevel →
      ((step cfg s d k).board.cellAt (s.snake.move d).headPos).contributionLevel = 0 ∧
      (step cfg s d k).snake.body = (s.snake.move d).body ∧
      (step cfg s d k).snake.growing = true ∧
      ((step cfg s d k).snake.move none).body.length = (s.snake.move d).body.length + 1 ∧
      (step cfg s d k).score = s.score + 1 ∧
      (step cfg s d k).food =
        spawnIfNeeded (s.board.consumeContribution (s.snake.move d).headPos).1 cfg.mode
          (if s.food = some (s.snake.move d).headPos then none else s.food)
          (s.snake.move d).bodyPositions k) ∧
    ((s.board.cellAt (s.snake.move d).headPos).contributionLevel ≤ 0 →
      (step cfg s d k).score = s.score ∧
      (step cfg s d k).board = s.board ∧
      (step cfg s d k).snake = s.snake.move d ∧
      (step cfg s d k).food =
        spawnIfNeeded s.board cfg.mode s.food (s.snake.move d).bodyPositions k) := by
  have hvalid : s.board.isValidPosition (s.snake.move d).headPos = true := by
    by_contra hv
    have hv' : s.board.isValidPosition (s.snake.move d).headPos = false := by
      cases h2 : s.board.isValidPosition (s.snake.move d).headPos
      · rfl
      · exact absurd h2 hv
    unfold checkSnakeCollision at hc
    rw [if_pos hv'] at hc
    cases hc
  constructor
  · intro hlvl
    have hcond : (s.board.isValidPosition (s.snake.move d).headPos &&
        decide (0 < (s.board.cellAt (s.snake.move d).headPos).contributionLevel)) = true := by
      simp [hvalid, hlvl]
    rcases hpair : s.board.consumeContribution (s.snake.move d).headPos with ⟨b1, flag⟩
    have hflag : flag = true := by
      have h2 := hpair
      unfold Board.consumeContribution at h2
      rw [if_pos hcond] at h2
      injection h2 with hA hB
      exact hB.symm
    subst hflag
    have hb1 : b1 = Board.mk s.board.width s.board.height (fun y x =>
        if y = (s.snake.move d).headPos.y.toNat ∧ x = (s.snake.move d).headPos.x.toNat then
          Cell.mk (s.board.cells y x).cellType 0
        else s.board.cells y x) := by
      have h2 := hpair
      unfold Board.consumeContribution at h2
      rw [if_pos hcond] at h2
      injection h2 with hA hB
      exact hA.symm
    have hstep : step cfg s d k =
        EngineState.mk b1 ((s.snake.move d).grow)
          (spawnIfNeeded b1 cfg.mode
            (if s.food = some (s.snake.move d).headPos then none else s.food)
            ((s.snake.move d).grow).bodyPositions k)
          (s.score + 1) (s.tick + 1)
          (finishStatus cfg b1 ((s.snake.move d).grow)
            (spawnIfNeeded b1 cfg.mode
              (if s.food = some (s.snake.move d).headPos then none else s.food)
              ((s.snake.move d).grow).bodyPositions k)
            (s.tick + 1)) := by
      unfold step
      rw [if_neg (by simp [hr])]
      simp only [hm, hpair, hc, ne_eq, not_true_eq_false, Bool.false_eq_true, if_false,
        not_false_iff, if_true, ite_true, ite_false]
    refine ⟨?_, ?_, ?_, ?_, ?_, ?_⟩
    · rw [hstep, hb1]
      simp only [Board.cellAt]
      simp
    · rw [hstep]
      rfl
    · rw [hstep]
      rfl
    · rw [hstep]
      show (((s.snake.move d).grow).move none).body.length =
        (s.snake.move d).body.length + 1
      unfold Snake.move Snake.grow
      simp
    · rw [hstep]
    · rw [hstep]
      rfl
  · intro hlvl
    have hcond : (s.board.isValidPosition (s.snake.move d).headPos &&
        decide (0 < (s.board.cellAt (s.snake.move d).headPos).contributionLevel)) = false := by
      have : ¬ (0 < (s.board.cellAt (s.snake.move d).headPos).contributionLevel) := by omega
      simp [this]
    have hpair : s.board.consumeContribution (s.snake.move d).headPos = (s.board, false) := by
      unfold Board.consumeContribution
      rw [if_neg (by simp [hcond])]
    have hstep : step cfg s d k =
        EngineState.mk s.board (s.snake.move d)
          (spawnIfNeeded s.board cfg.mode s.food (s.snake.move d).bodyPositions k)
          s.score (s.tick + 1)
          (finishStatus cfg s.board (s.snake.move d)
            (spawnIfNeeded s.board cfg.mode s.food (s.snake.move d).bodyPositions k)
            (s.tick + 1)) := by
      unfold step
      rw [if_neg (by simp [hr])]
      simp only [hm, hpair, hc, ne_eq, not_true_eq_false, Bool.false_eq_true, if_false,
        not_false_iff, if_true, ite_true, ite_false]
    refine ⟨?_, ?_, ?_, ?_⟩
    · rw [hstep]
    · rw [hstep]
    · rw [hstep]
    · rw [hstep]

/-- A 4×4 board with every cell at contribution level 1. -/
def c1Board : Board :=
  Board.mk 4 4 (fun _ _ => Cell.mk CellType.empty 1)

/-- A running food-mode state whose snake heads toward the tracked target
at (3, 2). -/
def c1State : EngineState :=
  EngineState.mk c1Board (Snake.create (Position.mk 2 2) 3 Direction.right)
    (some (Position.mk 3 2)) 0 0 Status.running

/-- C1 witness: stepping right consumes the level-1 cell at (3, 2) — the
score becomes 1, the cell is zeroed and the grow flag is set. -/
theorem engine_step_food_consumption_witness :
    (step testCfg c1State (some Direction.right) 0).score = c1State.score + 1 ∧
    ((step testCfg c1State (some Direction.right) 0).board.cellAt
      (Position.mk 3 2)).contributionLevel = 0 ∧
    (step testCfg c1State (some Direction.right) 0).snake.growing = true := by
  have h := engine_step_food_consumption testCfg c1State (some Direction.right) 0
    rfl rfl (by decide)
  have h1 := h.1 (by decide)
  have hhead : (c1State.snake.move (some Direction.right)).headPos = Position.mk 3 2 := by
    decide
  refine ⟨h1.2.2.2.2.1, ?_, h1.2.2.1⟩
  rw [← hhead]
  exact h1.1

/-- One insertion step of the stable sort: `a` is placed before the first
element strictly greater than it, so equal-key elements keep their
original relative order. -/
def stableInsert {α : Type} (lt : α → α → Bool) (a : α) : List α → List α
  | [] => [a]
  | b :: t => if lt a b then a :: b :: t else b :: stableInsert lt a t

/-- Python's stable `list.sort(key=...)` embedded as a stable insertion
sort; `lt` is the strict key comparison. Any two stable sorts over the
same strict weak order agree, so this reproduces CPython's sort. -/
def stableSort {α : Type} (lt : α → α → Bool) (l : List α) : List α :=
  l.foldl (fun acc a => stableInsert lt a acc) []

/-- Python `range(lo, hi)` over integers. -/
def intRange (lo hi : Int) : List Int :=
  (List.range (hi - lo).toNat).map (fun i => lo + (i : Int))

/-- The strict comparison of `_radial_candidates`' sort key
`(|dx| + |dy|, |dy|, |dx|)`, compared lexicographically. -/
def radialLt (anchor p q : Position) : Bool :=
  let a1 := (p.x - anchor.x).natAbs + (p.y - anchor.y).natAbs
  let a2 := (p.y - anchor.y).natAbs
  let a3 := (p.x - anchor.x).natAbs
  let b1 := (q.x - anchor.x).natAbs + (q.y - anchor.y).natAbs
  let b2 := (q.y - anchor.y).natAbs
  let b3 := (q.x - anchor.x).natAbs
  decide (a1 < b1) ||
    (a1 == b1 && (decide (a2 < b2) || (a2 == b2 && decide (a3 < b3))))

/-- `GameEngine._radial_candidates`: board positions with x in
[xMin, xMax], sorted by Manhattan-then-axis distance to the anchor. -/
def radialCandidates (b : Board) (anchor : Position) (xMin xMax : Int) :
    List Position :=
  stableSort (radialLt anchor)
    ((List.range b.height).flatMap (fun y =>
      (intRange xMin (xMax + 1)).map (fun x => Position.mk x (Int.ofNat y))))

/-- `GameEngine._spawn_candidates`; `shuffle` stands for the seeded
`rng.shuffle` used by the lower_half_random strategy. -/
def spawnCandidates (cfg : Config) (b : Board)
    (shuffle : List Position → List Position) (st : SpawnStrategy) :
    List Position :=
  let xMin : Int := (cfg.initialLength : Int) - 1
  let xMax : Int := (b.width : Int) - 1
  if xMax < xMin then []
  else
    match st with
    | SpawnStrategy.lowerHalfRandom =>
      shuffle ((intRange ((b.height : Int) / 2) (b.height : Int)).flatMap (fun y =>
        (intRange xMin (xMax + 1)).map (fun x => Position.mk x y)))
    | SpawnStrategy.bottomCenter =>
      radialCandidates b (Position.mk ((b.width : Int) / 2) ((b.height : Int) - 1))
        xMin xMax
    | SpawnStrategy.center =>
      radialCandidates b (Position.mk ((b.width : Int) / 2) ((b.height : Int) / 2))
        xMin xMax
    | SpawnStrategy.legacyLeft =>
      (intRange ((b.height : Int) / 2 - 2) ((b.height : Int) / 2 + 3)).flatMap (fun y =>
        if y < 0 ∨ (b.height : Int) ≤ y then []
        else (intRange ((cfg.initialLength : Int) + 1) ((b.width : Int) / 3)).filterMap
          (fun x => if xMin ≤ x ∧ x ≤ xMax then some (Position.mk x y) else none))

/-- `GameEngine._is_valid_spawn`: the whole initial body, laid out to the
left of the head, must be walkable. -/
def isValidSpawn (cfg : Config) (b : Board) (headPos : Position) : Bool :=
  (List.range cfg.initialLength).all (fun i =>
    b.isWalkable (Position.mk (headPos.x - (i : Int)) headPos.y))

/-- The strategy-list loop of `_find_start_position`: the preferred
strategy followed by the fixed fallback order, duplicates skipped. -/
def strategiesFor (preferred : SpawnStrategy) : List SpawnStrategy :=
  [SpawnStrategy.bottomCenter, SpawnStrategy.center, SpawnStrategy.legacyLeft].foldl
    (fun acc st => if acc.contains st then acc else acc ++ [st]) [preferred]

/-- `GameEngine._find_start_position`: the first candidate (over the
ordered strategies) from which the body fits, else a uniformly random
walkable cell (index oracle `k` standing for `rng.choice`), else the
board center. -/
def findStartPosition (cfg : Config) (b : Board)
    (shuffle : List Position → List Position) (k : Nat) : Position :=
  let strategies := strategiesFor cfg.spawnPosition
  match (strategies.flatMap (spawnCandidates cfg b shuffle)).find?
      (fun p => isValidSpawn cfg b p) with
  | some p => p
  | none =>
    let empty := b.emptyPositions []
    if empty.isEmpty then
      Position.mk ((b.width : Int) / 2) ((b.height : Int) / 2)
    else
      empty.getD (k % empty.length)
        (Position.mk ((b.width : Int) / 2) ((b.height : Int) / 2))

theorem isWalkable_of_validSpawn (cfg : Config) (b : Board) (p : Position)
    (hl : 1 ≤ cfg.initialLength) (h : isValidSpawn cfg b p = true) :
    b.isWalkable p = true := by
  unfold isValidSpawn at h
  rw [List.all_eq_true] at h
  have h0 := h 0 (List.mem_range.mpr hl)
  have hp : Position.mk (p.x - ((0 : Nat) : Int)) p.y = p := by
    cases p with
    | mk px py => simp
  rw [hp] at h0
  exact h0

/-- C4: the spawn search tries the preferred strategy's ordered candidates
first and then the remaining strategies in the fixed order bottom_center,
center, legacy_left; the first head position whose whole body is walkable
is taken; failing that a random walkable cell is chosen, and only on a
board with no walkable cell at all does it fall back to the board center —
it always returns a position. -/
theorem engine_find_start_position (cfg : Config) (b : Board)
    (shuffle : List Position → List Position) (k : Nat)
    (hl : 1 ≤ cfg.initialLength) :
    (strategiesFor SpawnStrategy.lowerHalfRandom =
       [SpawnStrategy.lowerHalfRandom, SpawnStrategy.bottomCenter,
        SpawnStrategy.center, SpawnStrategy.legacyLeft] ∧
     strategiesFor SpawnStrategy.bottomCenter =
       [SpawnStrategy.bottomCenter, SpawnStrategy.center, SpawnStrategy.legacyLeft] ∧
     strategiesFor SpawnStrategy.center =
       [SpawnStrategy.center, SpawnStrategy.bottomCenter, SpawnStrategy.legacyLeft] ∧
     strategiesFor SpawnStrategy.legacyLeft =
       [SpawnStrategy.legacyLeft, SpawnStrategy.bottomCenter, SpawnStrategy.center]) ∧
    (∀ p, ((strategiesFor cfg.spawnPosition).flatMap
        (spawnCandidates cfg b shuffle)).find? (fun q => isValidSpawn cfg b q) = some p →
      findStartPosition cfg b shuffle k = p ∧ isValidSpawn cfg b p = true) ∧
    (((strategiesFor cfg.spawnPosition).flatMap
        (spawnCandidates cfg b shuffle)).find? (fun q => isValidSpawn cfg b q) = none →
      (b.emptyPositions [] ≠ [] →
        findStartPosition cfg b shuffle k ∈ b.emptyPositions []) ∧
      (b.emptyPositions [] = [] →
        findStartPosition cfg b shuffle k =
          Position.mk ((b.width : Int) / 2) ((b.height : Int) / 2))) ∧
    (b.emptyPositions [] ≠ [] →
      b.isWalkable (findStartPosition cfg b shuffle k) = true) := by
  have hnone : ∀ hfind : ((strategiesFor cfg.spawnPosition).flatMap
      (spawnCandidates cfg b shuffle)).find? (fun q => isValidSpawn cfg b q) = none,
      (b.emptyPositions [] ≠ [] →
        findStartPosition cfg b shuffle k ∈ b.emptyPositions []) ∧
      (b.emptyPositions [] = [] →
        findStartPosition cfg b shuffle k =
          Position.mk ((b.width : Int) / 2) ((b.height : Int) / 2)) := by
    intro hfind
    constructor
    · intro hne
      have hie : (b.emptyPositions []).isEmpty = false := by
        cases hc : b.emptyPositions []
        · exact absurd hc hne
        · rfl
      have hlt : k % (b.emptyPositions []).length < (b.emptyPositions []).length := by
        refine Nat.mod_lt _ ?_
        cases hc : b.emptyPositions []
        · exact absurd hc hne
        · simp
      simp only [findStartPosition]
      rw [hfind]
      simp only [hie, Bool.false_eq_true, if_false]
      rw [List.getD_eq_getElem _ _ hlt]
      exact List.getElem_mem hlt
    · intro he
      simp only [findStartPosition]
      rw [hfind]
      simp [he]
  refine ⟨by refine ⟨rfl, rfl, rfl, rfl⟩, ?_, hnone, ?_⟩
  · intro p hfind
    have hvalid : isValidSpawn cfg b p = true := List.find?_some hfind
    refine ⟨?_, hvalid⟩
    simp only [findStartPosition]
    rw [hfind]
  · intro hne
    cases hfind : ((strategiesFor cfg.spawnPosition).flatMap
        (spawnCandidates cfg b shuffle)).find? (fun q => isValidSpawn cfg b q) with
    | some p =>
      have hvalid : isValidSpawn cfg b p = true := List.find?_some hfind
      have hr : findStartPosition cfg b shuffle k = p := by
        simp only [findStartPosition]
        rw [hfind]
      rw [hr]
      exact isWalkable_of_validSpawn cfg b p hl hvalid
    | none =>
      have hmem := (hnone hfind).1 hne
      exact ((mem_emptyPositions b [] _).mp hmem).1

/-- C4 witness: on an all-empty 4×4 board with the bottom_center
preference, the chosen start is walkable. -/
theorem engine_find_start_position_witness :
    1 ≤ testCfg.initialLength ∧ (mkBoard 4 4).emptyPositions [] ≠ [] ∧
    (mkBoard 4 4).isWalkable (findStartPosition testCfg (mkBoard 4 4) id 0) = true := by
  refine ⟨by decide, by decide, ?_⟩
  exact (engine_find_start_position testCfg (mkBoard 4 4) id 0 (by decide)).2.2.2
    (by decide)

/-- `AIController._best_survival_move`: score each safe move with
`evaluate_move_safety` and take a highest-scoring one; Python's stable
`sort(key=score, reverse=True)` is embedded as the stable descending
insertion sort. With no safe moves the current heading is returned. -/
def bestSurvivalMove (state : GameState) (safeMoves : List Direction) : Direction :=
  match safeMoves with
  | [] => state.snake.direction
  | _ :: _ =>
    let scores := safeMoves.map (fun d =>
      (d, evaluateMoveSafety state.snake d state.board))
    ((stableSort (fun a b : Direction × Nat => decide (b.2 < a.2)) scores).headD
      (state.snake.direction, 0)).1

/-- `AIController._bfs_safe_move`: keep the heading if no safe move
exists; with no target, survival; else follow the BFS path's first step
whenever the path is non-empty and the post-move reachable space is at
least snake length + 5, otherwise survival. (The code never re-checks the
path's first step against the safe-move set.) -/
def bfsSafeMove (state : GameState) : Direction :=
  let safeMoves := findSafeMoves state.snake state.board
  if safeMoves.isEmpty then state.snake.direction
  else
    match state.food with
    | none => bestSurvivalMove state safeMoves
    | some food =>
      match bfsPath state.snake.headPos food state.board
          (obstaclesForMove state.snake) with
      | some (d :: _) =>
        if state.snake.body.length + 5 ≤ evaluateMoveSafety state.snake d state.board
        then d
        else bestSurvivalMove state safeMoves
      | _ => bestSurvivalMove state safeMoves

/-- A 5×5 board whose only wall is the cell (3, 2). -/
def c2Board : Board :=
  Board.mk 5 5 (fun y x =>
    if y = 2 ∧ x = 3 then Cell.mk CellType.wall 0 else Cell.mk CellType.empty 0)

/-- A running state whose tracked target sits on the wall cell directly
ahead of the snake. -/
def c2State : GameState :=
  GameState.mk c2Board
    (Snake.mk [Position.mk 2 2, Position.mk 1 2, Position.mk 0 2]
      Direction.right false)
    (some (Position.mk 3 2)) 0 0 Status.running

/-- C2 counterexample: with the target on the wall at (3, 2), BFS
special-cases the adjacent target and returns RIGHT, the reachable-space
buffer passes, and bfs_safe returns RIGHT even though RIGHT is not a safe
move and is not the survival choice — the claimed membership check in
`find_safe_moves` does not exist in the code. -/
theorem bfs_safe_first_step_unchecked :
    bfsSafeMove c2State = Direction.right ∧
    (findSafeMoves c2State.snake c2State.board).contains Direction.right = false ∧
    bestSurvivalMove c2State (findSafeMoves c2State.snake c2State.board) ≠
      Direction.right := by
  decide

/-- C2 as amended: for every state with a target, bfs_safe returns the
BFS path's first step exactly when the path is non-empty, some safe move
exists, and the post-move reachable count is at least snake length + 5 —
the first step is not itself re-checked against the safe set; in every
other case it returns the best survival move (the current heading when no
safe move exists). -/
theorem bfs_safe_move_characterization (state : GameState) (t : Position)
    (hf : state.food = some t) :
    bfsSafeMove state =
      (match bfsPath state.snake.headPos t state.board
          (obstaclesForMove state.snake) with
       | some (d :: _) =>
         if findSafeMoves state.snake state.board ≠ [] ∧
             state.snake.body.length + 5 ≤ evaluateMoveSafety state.snake d state.board
         then d
         else bestSurvivalMove state (findSafeMoves state.snake state.board)
       | _ => bestSurvivalMove state (findSafeMoves state.snake state.board)) := by
  by_cases hs : findSafeMoves state.snake state.board = []
  · have hL : bfsSafeMove state = state.snake.direction := by
      simp only [bfsSafeMove, hf]
      rw [hs]
      rfl
    rw [hL]
    cases hbp : bfsPath state.snake.headPos t state.board
        (obstaclesForMove state.snake) with
    | none =>
      rw [hs]
      rfl
    | some path =>
      cases path with
      | nil =>
        rw [hs]
        rfl
      | cons d rest =>
        rw [hs]
        show state.snake.direction =
          (if ([] : List Direction) ≠ [] ∧
              state.snake.body.length + 5 ≤ evaluateMoveSafety state.snake d state.board
           then d else bestSurvivalMove state [])
        rw [if_neg (by simp)]
        rfl
  · have hie : (findSafeMoves state.snake state.board).isEmpty = false := by
      cases hc : findSafeMoves state.snake state.board with
      | nil => exact absurd hc hs
      | cons a t2 => rfl
    simp only [bfsSafeMove, hf, hie, Bool.false_eq_true, if_false]
    cases hbp : bfsPath state.snake.headPos t state.board
        (obstaclesForMove state.snake) with
    | none => rfl
    | some path =>
      cases path with
      | nil => rfl
      | cons d rest =>
        show (if state.snake.body.length + 5 ≤
              evaluateMoveSafety state.snake d state.board
            then d else bestSurvivalMove state (findSafeMoves state.snake state.board)) =
          (if findSafeMoves state.snake state.board ≠ [] ∧
              state.snake.body.length + 5 ≤ evaluateMoveSafety state.snake d state.board
           then d else bestSurvivalMove state (findSafeMoves state.snake state.board))
        by_cases hsp : state.snake.body.length + 5 ≤
            evaluateMoveSafety state.snake d state.board
        · rw [if_pos hsp, if_pos (And.intro hs hsp)]
        · rw [if_neg hsp, if_neg (by tauto)]

/-- A running state on an open 5×5 board with the target two cells ahead. -/
def c2bState : GameState :=
  GameState.mk (mkBoard 5 5)
    (Snake.mk [Position.mk 2 2, Position.mk 1 2, Position.mk 0 2]
      Direction.right false)
    (some (Position.mk 4 2)) 0 0 Status.running

/-- C2 witness: on the open board the characterization evaluates to the
path's first step RIGHT. -/
theorem bfs_safe_move_characterization_witness :
    c2bState.food = some (Position.mk 4 2) ∧ bfsSafeMove c2bState = Direction.right := by
  refine ⟨rfl, ?_⟩
  rw [bfs_safe_move_characterization c2bState (Position.mk 4 2) rfl]
  decide

end SnakeGame
